import Mathlib

/-!
Verification development for textual-dissect (src/textual_dissect/app.py).

The program is a terminal inspector for the textual widget toolkit: a registry
WIDGET_CLASSES of widget identifiers drives a selector list, two link panels
(documentation and source code), an inheritance-tree panel, and a default-CSS
panel.  The lookups get_base_classes and get_default_css reflect into the
toolkit through import_module and getattr; that external collaborator is
modelled here as an explicit environment of modules holding class objects.
Module-level caches are passed as explicit association lists.
-/

namespace TextualDissect

/-- Whitespace characters recognised by Python str.strip (ASCII range). -/
def pyIsSpace (c : Char) : Bool :=
  c == ' ' || c == '\t' || c == '\n' || c == '\r' || c == '\x0b' || c == '\x0c'

/-- Python str.strip on a list of characters: drop whitespace from both ends. -/
def pyStripL (l : List Char) : List Char :=
  ((l.dropWhile pyIsSpace).reverse.dropWhile pyIsSpace).reverse

/-- Python str.strip on strings. -/
def pyStrip (s : String) : String := ⟨pyStripL s.data⟩

/-- Helper for camel_to_snake: an underscore is inserted before every uppercase
letter, and every letter is lowercased. -/
def camelToSnakeTail : List Char → List Char
  | [] => []
  | c :: cs => (if c.isUpper then ['_', c.toLower] else [c.toLower]) ++ camelToSnakeTail cs

/-- Modelled from the spec: the camel-case-to-snake-case conversion used for URL
path segments and module names (textual.case.camel_to_snake is part of the
external toolkit, not of this repository).  An underscore is inserted before
every uppercase letter except at the first character, then everything is
lowercased, so RadioButton becomes radio_button. -/
def camel_to_snake (s : String) : String :=
  match s.data with
  | [] => ⟨[]⟩
  | c :: cs => ⟨c.toLower :: camelToSnakeTail cs⟩

/-- Characters counted as indentation by textwrap.dedent. -/
def isMarginChar (c : Char) : Bool := c == ' ' || c == '\t'

/-- Split a character list at newline characters (Python text.split with the
newline separator); always returns at least one line. -/
def splitNl : List Char → List (List Char)
  | [] => [[]]
  | c :: cs =>
    if c = '\n' then [] :: splitNl cs
    else
      match splitNl cs with
      | [] => [[c]]
      | l :: ls => (c :: l) :: ls

/-- Join lines back with newline characters; inverse direction of splitNl. -/
def joinNl : List (List Char) → List Char
  | [] => []
  | [l] => l
  | l :: ls => l ++ '\n' :: joinNl ls

/-- Longest common prefix of two character lists. -/
def commonPrefix : List Char → List Char → List Char
  | a :: as, b :: bs => if a = b then a :: commonPrefix as bs else []
  | _, _ => []

/-- The common margin: the longest shared space/tab prefix of the nonempty
lines. -/
def dedentMargin (lines : List (List Char)) : List Char :=
  match (lines.filter fun ln => !ln.isEmpty).map (fun ln => ln.takeWhile isMarginChar) with
  | [] => []
  | i :: is => is.foldl commonPrefix i

/-- Modelled from the spec: textwrap.dedent (Python standard library, external
to this repository), the normalisation applied to DEFAULT_CSS.  Lines holding
only spaces and tabs are emptied, the longest common space/tab prefix of the
remaining nonempty lines is computed, and that prefix is removed from the start
of every line that carries it. -/
def dedentL (l : List Char) : List Char :=
  let lines1 := (splitNl l).map fun ln => if ln.all isMarginChar && !ln.isEmpty then [] else ln
  let margin := dedentMargin lines1
  joinNl (lines1.map fun ln => if margin.isPrefixOf ln then ln.drop margin.length else ln)

/-- textwrap.dedent on strings. -/
def dedent (s : String) : String := ⟨dedentL s.data⟩

/-- The WIDGET_CLASSES registry from app.py, in display order. -/
def WIDGET_CLASSES : List String := [
  "Button",
  "Checkbox",
  "Collapsible",
  "ContentSwitcher",
  "DataTable",
  "Digits",
  "DirectoryTree",
  "Footer",
  "Header",
  "Input",
  "Label",
  "Link",
  "ListView",
  "LoadingIndicator",
  "Log",
  "MarkdownViewer",
  "Markdown",
  "MaskedInput",
  "OptionList",
  "Placeholder",
  "Pretty",
  "ProgressBar",
  "RadioButton",
  "RadioSet",
  "RichLog",
  "Rule",
  "Select",
  "SelectionList",
  "Sparkline",
  "Static",
  "Switch",
  "Tabs",
  "TabbedContent",
  "TextArea",
  "Tree"]

/-- State of a Link widget: its visible text and its link target. -/
structure LinkState where
  text : String
  url : String
deriving DecidableEq

/-- DocumentationLink.BASE_URL from app.py. -/
def DocumentationLink.BASE_URL : String := "https://textual.textualize.io/widgets/"

/-- DocumentationLink.watch_widget_class: set both the text and the url to
BASE_URL followed by the snake-case form of the widget class name. -/
def DocumentationLink.watch_widget_class (s : LinkState) (widget_class : String) : LinkState :=
  let widget_url := DocumentationLink.BASE_URL ++ camel_to_snake widget_class
  ⟨widget_url, widget_url⟩

/-- SourceCodeLink.BASE_URL from app.py. -/
def SourceCodeLink.BASE_URL : String := "https://github.com/Textualize/textual/"

/-- SourceCodeLink.VERSION_PATH; the toolkit version string is a parameter of the
model because textual.__version__ belongs to the external toolkit. -/
def SourceCodeLink.VERSION_PATH (version : String) : String := "blob/v" ++ version ++ "/"

/-- SourceCodeLink.WIDGETS_PATH from app.py. -/
def SourceCodeLink.WIDGETS_PATH : String := "src/textual/widgets/"

/-- SourceCodeLink.SOURCE_URL from app.py. -/
def SourceCodeLink.SOURCE_URL (version : String) : String :=
  SourceCodeLink.BASE_URL ++ SourceCodeLink.VERSION_PATH version ++ SourceCodeLink.WIDGETS_PATH

/-- SourceCodeLink.watch_widget_class: set both the text and the url to
SOURCE_URL followed by the underscore-prefixed snake-case file name. -/
def SourceCodeLink.watch_widget_class (version : String) (s : LinkState)
    (widget_class : String) : LinkState :=
  let widget_file := "_" ++ camel_to_snake widget_class ++ ".py"
  let widget_url := SourceCodeLink.SOURCE_URL version ++ widget_file
  ⟨widget_url, widget_url⟩

/-- Model of a Python class object: its __name__, its __bases__ tuple, and its
DEFAULT_CSS class attribute.  The external toolkit's class hierarchy enters the
lookups through values of this type; bases outside the DOMNode family are never
inspected by the walk, so only family-relevant bases need to be populated. -/
inductive PyClass : Type where
  | mk : String → List PyClass → String → PyClass

/-- The __name__ attribute. -/
def PyClass.name : PyClass → String
  | .mk n _ _ => n

/-- The __bases__ tuple. -/
def PyClass.bases : PyClass → List PyClass
  | .mk _ bs _ => bs

/-- The DEFAULT_CSS class attribute. -/
def PyClass.DEFAULT_CSS : PyClass → String
  | .mk _ _ css => css

mutual

/-- Structural equality of modelled classes, standing in for Python class
identity. -/
def pyClassBeq : PyClass → PyClass → Bool
  | .mk n bs css, .mk n2 bs2 css2 => n == n2 && css == css2 && pyClassListBeq bs bs2

/-- Structural equality on lists of modelled classes. -/
def pyClassListBeq : List PyClass → List PyClass → Bool
  | [], [] => true
  | c :: cs, d :: ds => pyClassBeq c d && pyClassListBeq cs ds
  | _, _ => false

end

/-- DOMNode from textual.dom, the root of the node-capability family.  Its own
bases (MessagePump and object) lie outside the family and are never followed by
the walk, so they are modelled as absent. -/
def DOMNode : PyClass := .mk "DOMNode" [] ""

mutual

/-- The issubclass check over the modelled hierarchy: a class is a subclass of
the target when it is the target itself or one of its bases is, transitively. -/
def issub : PyClass → PyClass → Bool
  | .mk n bs css, d => pyClassBeq (.mk n bs css) d || issubAnyBase bs d

/-- issubclass of the target for some class in the list. -/
def issubAnyBase : List PyClass → PyClass → Bool
  | [], _ => false
  | b :: rest, d => issub b d || issubAnyBase rest d

end

mutual

/-- The while-loop of get_base_classes: record the class name, then continue
from the first base that is a subclass of DOMNode; stop when no base is.  The
resulting list is leaf-first and includes the class the walk started from. -/
def getBasesLoop : PyClass → List String
  | .mk _n bs _css => (PyClass.mk _n bs _css).name :: getBasesStep bs

/-- The for-loop over __bases__ inside get_base_classes: continue the walk from
the first base in the DOMNode family, or end the walk. -/
def getBasesStep : List PyClass → List String
  | [] => []
  | b :: rest => if issub b DOMNode then getBasesLoop b else getBasesStep rest

end

/-- A Python module, mapping attribute names to the class objects it exports. -/
structure PyModule where
  attrs : List (String × PyClass)

/-- The importable world: a mapping from absolute module paths to modules,
modelling what import_module can reach inside the textual.widgets package. -/
structure Env where
  modules : List (String × PyModule)

/-- Association-list lookup, modelling Python dict lookup and getattr. -/
def alookup {α : Type} : List (String × α) → String → Option α
  | [], _ => none
  | (k, v) :: rest, key => if k == key then some v else alookup rest key

/-- The exceptions the embedded code can raise, plus the spec's UnknownWidget
error kind.  The code itself never raises UnknownWidget; the constructor exists
so the spec's claim about it can be stated. -/
inductive PyError : Type where
  | moduleNotFound : PyError
  | attributeError : PyError
  | indexError : PyError
  | unknownWidget : PyError
deriving DecidableEq

/-- The relative module path built by both lookups from the widget class name. -/
def widget_module_path (widget_class : String) : String :=
  "._" ++ camel_to_snake widget_class

/-- import_module with a relative path against a package: the module is looked
up at the absolute path formed from the package name and the relative path. -/
def Env.import_module (env : Env) (package path : String) : Option PyModule :=
  alookup env.modules (package ++ path)

/-- getattr restricted to class-valued attributes. -/
def getattr_class (m : PyModule) (name : String) : Option PyClass :=
  alookup m.attrs name

/-- The module import and attribute access shared by get_base_classes and
get_default_css: import textual.widgets._snake_name and read the class named
by the widget identifier.  No registry check is performed. -/
def resolve_widget (env : Env) (widget_class : String) : Except PyError PyClass :=
  match env.import_module "textual.widgets" (widget_module_path widget_class) with
  | none => .error .moduleNotFound
  | some m =>
    match getattr_class m widget_class with
    | none => .error .attributeError
    | some c => .ok c

/-- The value computed by get_base_classes on a cache miss: walk the hierarchy
leaf-first, then reverse to root-first order. -/
def compute_base_classes (env : Env) (widget_class : String) : Except PyError (List String) :=
  match resolve_widget env widget_class with
  | .error e => .error e
  | .ok cls => .ok (getBasesLoop cls).reverse

/-- The module-level cache _WIDGET_BASE_CLASSES_CACHE, passed explicitly. -/
abbrev BasesCache := List (String × List String)

/-- The module-level cache _WIDGET_DEFAULT_CSS_CACHE, passed explicitly. -/
abbrev CssCache := List (String × String)

/-- get_base_classes from app.py: on a cache miss the chain is computed and
stored; the cached value is returned.  A raised exception leaves the cache
untouched and propagates. -/
def get_base_classes (env : Env) (cache : BasesCache) (widget_class : String) :
    Except PyError (List String × BasesCache) :=
  match alookup cache widget_class with
  | some l => .ok (l, cache)
  | none =>
    match compute_base_classes env widget_class with
    | .error e => .error e
    | .ok l => .ok (l, (widget_class, l) :: cache)

/-- The value computed by get_default_css on a cache miss: the class's
DEFAULT_CSS, dedented and stripped. -/
def compute_default_css (env : Env) (widget_class : String) : Except PyError String :=
  match resolve_widget env widget_class with
  | .error e => .error e
  | .ok cls => .ok (pyStrip (dedent cls.DEFAULT_CSS))

/-- get_default_css from app.py: on a cache miss the cleaned CSS is computed and
stored; the cached value is returned.  A raised exception leaves the cache
untouched and propagates. -/
def get_default_css (env : Env) (cache : CssCache) (widget_class : String) :
    Except PyError (String × CssCache) :=
  match alookup cache widget_class with
  | some v => .ok (v, cache)
  | none =>
    match compute_default_css env widget_class with
    | .error e => .error e
    | .ok v => .ok (v, (widget_class, v) :: cache)

/-- InheritanceTree.watch_widget_class: clear the tree, add base_classes[1]
under the hidden DOMNode root, chain the classes from index 2 below it, and put
the cursor on the last line.  The state is the linear chain of node labels below
the root together with the cursor line.  Indexing base_classes[1] raises
IndexError when the chain is shorter; nothing catches exceptions here. -/
def InheritanceTree.watch_widget_class (env : Env) (cache : BasesCache)
    (widget_class : String) : Except PyError ((List String × Nat) × BasesCache) :=
  match get_base_classes env cache widget_class with
  | .error e => .error e
  | .ok (base_classes, cache') =>
    match base_classes[1]? with
    | none => .error .indexError
    | some second =>
      let chain := second :: base_classes.drop 2
      .ok ((chain, chain.length - 1), cache')

/-- DefaultCSSView.watch_widget_class: load the looked-up default CSS as the
text content.  Nothing catches exceptions here. -/
def DefaultCSSView.watch_widget_class (env : Env) (cache : CssCache)
    (widget_class : String) : Except PyError (String × CssCache) :=
  get_default_css env cache widget_class

/-- An option of the WidgetsList, with its prompt and its option id. -/
structure UIOption where
  prompt : String
  id : String

/-- The options the WidgetsList is constructed with: one per registry entry,
labelled and keyed by the identifier itself. -/
def WidgetsList.options : List UIOption :=
  WIDGET_CLASSES.map fun widget => ⟨widget, widget⟩

/-- The initial value of the reactive widget_class variables: the first registry
entry. -/
def TextualDissectApp.initial_widget_class : String := WIDGET_CLASSES[0]!

/-- TextualDissectApp.on_widgets_list_option_highlighted: the asserted option id
becomes the new selection; a missing id (None) is an assertion failure, which is
modelled as none. -/
def TextualDissectApp.on_widgets_list_option_highlighted
    (widget_class : String) (option_id : Option String) : Option String :=
  match option_id with
  | none => none
  | some w => some w

/-- Fold a sequence of highlight events through the handler, starting from a
selection state; an assertion failure leaves the state unchanged. -/
def runHighlights (s : String) : List String → String
  | [] => s
  | e :: rest =>
    match TextualDissectApp.on_widgets_list_option_highlighted s (some e) with
    | none => runHighlights s rest
    | some s' => runHighlights s' rest

/-- The rendered content of the four data-bound panels. -/
structure PanelsState where
  documentation_link : LinkState
  source_code_link : LinkState
  inheritance_tree : List String × Nat
  default_css_view : String
deriving DecidableEq

/-- The panel contents together with the two module-level caches. -/
structure AppState where
  panels : PanelsState
  bases_cache : BasesCache
  css_cache : CssCache

/-- One selection change: every data-bound panel's watch method runs on the new
widget_class, reading through the caches; a raised exception aborts the
update. -/
def updateAll (env : Env) (version : String) (s : AppState) (widget_class : String) :
    Except PyError AppState :=
  match InheritanceTree.watch_widget_class env s.bases_cache widget_class with
  | .error e => .error e
  | .ok (tree, bcache) =>
    match DefaultCSSView.watch_widget_class env s.css_cache widget_class with
    | .error e => .error e
    | .ok (css, ccache) =>
      .ok ⟨⟨DocumentationLink.watch_widget_class s.panels.documentation_link widget_class,
            SourceCodeLink.watch_widget_class version s.panels.source_code_link widget_class,
            tree, css⟩, bcache, ccache⟩

/-- A sequence of selection changes applied in order. -/
def updateSeq (env : Env) (version : String) (s : AppState) : List String → Except PyError AppState
  | [] => .ok s
  | w :: rest =>
    match updateAll env version s w with
    | .error e => .error e
    | .ok s' => updateSeq env version s' rest

/-- Success test for an exceptional computation. -/
def isOkB {ε α : Type} : Except ε α → Bool
  | .ok _ => true
  | .error _ => false

/-- A sequence of get_base_classes calls, tracking only the cache; a raised
exception leaves the cache untouched. -/
def runBasesCalls (env : Env) (cache : BasesCache) : List String → BasesCache
  | [] => cache
  | w :: ws =>
    match get_base_classes env cache w with
    | .error _ => runBasesCalls env cache ws
    | .ok (_, cache') => runBasesCalls env cache' ws

/-- Completeness of the collaborator's data over the registry: every registered
identifier resolves to a class that is a proper descendant of DOMNode and whose
DEFAULT_CSS holds at least one non-whitespace character. -/
def envComplete (env : Env) : Bool :=
  WIDGET_CLASSES.all fun w =>
    match resolve_widget env w with
    | .error _ => false
    | .ok cls =>
      issubAnyBase cls.bases DOMNode && cls.DEFAULT_CSS.data.any (fun c => !pyIsSpace c)

/-- The Widget base class shared by the demonstration classes, a direct child of
DOMNode as in the toolkit. -/
def WidgetClass : PyClass := .mk "Widget" [DOMNode] "  color: red;\n"

/-- A demonstration widget class: a direct child of Widget, as Button is in the
toolkit, with a small nonempty DEFAULT_CSS. -/
def demoClass (w : String) : PyClass := .mk w [WidgetClass] "  color: red;\n"

/-- A demonstration environment providing a module and a class for every
registry entry, mirroring the toolkit's layout. -/
def demoEnv : Env :=
  ⟨WIDGET_CLASSES.map fun w => ("textual.widgets" ++ widget_module_path w, ⟨[(w, demoClass w)]⟩)⟩

/-- An environment with no importable modules. -/
def emptyEnv : Env := ⟨[]⟩

/-- An environment providing only the toolkit's Tooltip widget, which is not a
registry entry: textual.widgets._tooltip exists in the toolkit, so the lookups
resolve it although it is unregistered. -/
def tooltipEnv : Env :=
  ⟨[("textual.widgets._tooltip", ⟨[("Tooltip", demoClass "Tooltip")]⟩)]⟩

/-- An app state with blank panels and empty caches, the state at startup before
the first watch methods fire. -/
def demoAppState : AppState := ⟨⟨⟨"", ""⟩, ⟨"", ""⟩, ([], 0), ""⟩, [], []⟩

/-- A character list carries no whitespace at either end. -/
def noEdgeWs (l : List Char) : Bool :=
  (match l.head? with
   | none => true
   | some c => !pyIsSpace c) &&
  (match l.getLast? with
   | none => true
   | some c => !pyIsSpace c)

/-- Soundness of the css cache with respect to the environment: every stored
value is the one the uncached computation produces. -/
def cssCoherent (env : Env) (cache : CssCache) : Prop :=
  ∀ w v, alookup cache w = some v → compute_default_css env w = .ok v

/-- Soundness of the base-classes cache with respect to the environment: every
stored chain is the one the uncached computation produces. -/
def basesCoherent (env : Env) (cache : BasesCache) : Prop :=
  ∀ w l, alookup cache w = some l → compute_base_classes env w = .ok l

end TextualDissect

deriving instance DecidableEq for Except

namespace TextualDissect

/-! Helper lemmas about the lookups and their error kinds. -/

theorem resolve_widget_error_kinds (env : Env) (w : String) (e : PyError)
    (h : resolve_widget env w = .error e) : e = .moduleNotFound ∨ e = .attributeError := by
  unfold resolve_widget at h
  split at h
  · injection h with h'; exact Or.inl h'.symm
  · split at h
    · injection h with h'; exact Or.inr h'.symm
    · cases h

theorem compute_default_css_error (env : Env) (w : String) (e : PyError)
    (h : compute_default_css env w = .error e) : resolve_widget env w = .error e := by
  unfold compute_default_css at h
  cases hr : resolve_widget env w with
  | error e' => rw [hr] at h; injection h with h'; rw [h']
  | ok cls => rw [hr] at h; cases h

theorem compute_base_classes_error (env : Env) (w : String) (e : PyError)
    (h : compute_base_classes env w = .error e) : resolve_widget env w = .error e := by
  unfold compute_base_classes at h
  cases hr : resolve_widget env w with
  | error e' => rw [hr] at h; injection h with h'; rw [h']
  | ok cls => rw [hr] at h; cases h

/-! C2: URL construction. -/

/-- C2: URL construction is a pure, deterministic function of the identifier:
for RadioButton the documentation URL is the base URL plus the camel-to-snake
conversion, for TabbedContent the source URL ends with the snake-case file
name, and neither watch method depends on the panel's previous state. -/
theorem url_construction_pure :
    (∀ s : LinkState, DocumentationLink.watch_widget_class s "RadioButton" =
      ⟨"https://textual.textualize.io/widgets/radio_button",
       "https://textual.textualize.io/widgets/radio_button"⟩) ∧
    (∀ (version : String) (s : LinkState), ∃ p : String,
      (SourceCodeLink.watch_widget_class version s "TabbedContent").url =
        p ++ "_tabbed_content.py") ∧
    (∀ (s s' : LinkState) (w : String),
      DocumentationLink.watch_widget_class s w = DocumentationLink.watch_widget_class s' w) ∧
    (∀ (version : String) (s s' : LinkState) (w : String),
      SourceCodeLink.watch_widget_class version s w =
        SourceCodeLink.watch_widget_class version s' w) :=
  ⟨fun _ => rfl,
   fun version _ => ⟨SourceCodeLink.SOURCE_URL version, rfl⟩,
   fun _ _ _ => rfl,
   fun _ _ _ _ => rfl⟩

/-! C4: selection state invariant. -/

theorem runHighlights_mem (events : List String) :
    ∀ s : String, s ∈ WIDGET_CLASSES →
      (∀ e ∈ events, e ∈ WidgetsList.options.map UIOption.id) →
      runHighlights s events ∈ WIDGET_CLASSES := by
  induction events with
  | nil => intro s hs _; exact hs
  | cons e rest ih =>
    intro s hs hev
    have he : e ∈ WidgetsList.options.map UIOption.id := hev e (List.mem_cons_self e rest)
    have he' : e ∈ WIDGET_CLASSES := by
      simpa [WidgetsList.options, List.map_map, Function.comp] using he
    show runHighlights e rest ∈ WIDGET_CLASSES
    exact ih e he' (fun e' h' => hev e' (List.mem_cons_of_mem e h'))

/-- C4: the selection state starts at the catalog's first entry, Button, which
is registered; the WidgetsList option ids are exactly the registry; and any
sequence of highlight events whose ids are drawn from those options keeps the
selection inside the registry. -/
theorem selection_state_invariant :
    TextualDissectApp.initial_widget_class = "Button" ∧
    WIDGET_CLASSES.head? = some "Button" ∧
    TextualDissectApp.initial_widget_class ∈ WIDGET_CLASSES ∧
    WidgetsList.options.map UIOption.id = WIDGET_CLASSES ∧
    ∀ events : List String, (∀ e ∈ events, e ∈ WidgetsList.options.map UIOption.id) →
      runHighlights TextualDissectApp.initial_widget_class events ∈ WIDGET_CLASSES := by
  refine ⟨rfl, rfl, by decide, by decide, ?_⟩
  intro events hev
  exact runHighlights_mem events TextualDissectApp.initial_widget_class (by decide) hev

/-- Witness for C4: a concrete highlight trace stays inside the registry. -/
theorem selection_state_invariant_witness :
    runHighlights TextualDissectApp.initial_widget_class ["Checkbox", "Tree"] ∈ WIDGET_CLASSES :=
  selection_state_invariant.2.2.2.2 ["Checkbox", "Tree"] (by decide)

/-! C5: panel failure behaviour. -/

/-- C5 counterexample: with an environment in which the lookup for the selected
widget fails, both watch methods let the exception escape as an error instead
of surfacing an error placeholder, refuting the claim that a lookup failure is
caught by the affected panel. -/
theorem panel_failure_counterexample :
    DefaultCSSView.watch_widget_class emptyEnv [] "Button" = .error .moduleNotFound ∧
    InheritanceTree.watch_widget_class emptyEnv [] "Button" = .error .moduleNotFound := by
  decide

/-- C5 amended: if a catalog lookup fails for the selected widget, the affected
panel's watch method propagates that same exception; nothing in the panel
catches it or renders a placeholder. -/
theorem panel_failure_propagates :
    (∀ (env : Env) (cache : CssCache) (w : String) (e : PyError), alookup cache w = none →
      compute_default_css env w = .error e →
      DefaultCSSView.watch_widget_class env cache w = .error e) ∧
    (∀ (env : Env) (cache : BasesCache) (w : String) (e : PyError), alookup cache w = none →
      compute_base_classes env w = .error e →
      InheritanceTree.watch_widget_class env cache w = .error e) := by
  constructor
  · intro env cache w e h1 h2
    simp only [DefaultCSSView.watch_widget_class, get_default_css, h1, h2]
  · intro env cache w e h1 h2
    simp only [InheritanceTree.watch_widget_class, get_base_classes, h1, h2]

/-- Witness for the amended C5 at a concrete failing lookup. -/
theorem panel_failure_propagates_witness :
    DefaultCSSView.watch_widget_class emptyEnv [] "Tree" = .error .moduleNotFound ∧
    InheritanceTree.watch_widget_class emptyEnv [] "Tree" = .error .moduleNotFound :=
  ⟨panel_failure_propagates.1 emptyEnv [] "Tree" .moduleNotFound (by decide) (by decide),
   panel_failure_propagates.2 emptyEnv [] "Tree" .moduleNotFound (by decide) (by decide)⟩

/-! C6: behaviour on unregistered identifiers. -/

/-- C6 counterexample: Tooltip is not in the registry, yet both lookups succeed
for it in an environment where its module resolves (as in the live toolkit),
and in an environment without the module they fail with a module-import error,
never with the UnknownWidget kind the claim requires. -/
theorem unregistered_lookup_counterexample :
    "Tooltip" ∉ WIDGET_CLASSES ∧
    get_default_css tooltipEnv [] "Tooltip" = .ok ("color: red;", [("Tooltip", "color: red;")]) ∧
    get_base_classes tooltipEnv [] "Tooltip" =
      .ok (["DOMNode", "Widget", "Tooltip"], [("Tooltip", ["DOMNode", "Widget", "Tooltip"])]) ∧
    get_default_css emptyEnv [] "Tooltip" = .error .moduleNotFound := by
  decide

/-- C6 amended: the lookups perform no registry check and never produce the
UnknownWidget error kind; when the module derived from the identifier cannot be
imported (and the cache has no entry), both fail with a module-not-found import
error, regardless of registry membership. -/
theorem unregistered_lookup_behaviour :
    (∀ (env : Env) (cache : CssCache) (w : String),
      get_default_css env cache w ≠ .error .unknownWidget) ∧
    (∀ (env : Env) (cache : BasesCache) (w : String),
      get_base_classes env cache w ≠ .error .unknownWidget) ∧
    (∀ (env : Env) (cache : CssCache) (w : String), alookup cache w = none →
      env.import_module "textual.widgets" (widget_module_path w) = none →
      get_default_css env cache w = .error .moduleNotFound) ∧
    (∀ (env : Env) (cache : BasesCache) (w : String), alookup cache w = none →
      env.import_module "textual.widgets" (widget_module_path w) = none →
      get_base_classes env cache w = .error .moduleNotFound) := by
  refine ⟨?_, ?_, ?_, ?_⟩
  · intro env cache w h
    unfold get_default_css at h
    cases hl : alookup cache w with
    | some v => rw [hl] at h; cases h
    | none =>
      rw [hl] at h
      cases hc : compute_default_css env w with
      | ok v => rw [hc] at h; cases h
      | error e =>
        rw [hc] at h
        injection h with h'
        subst h'
        have := compute_default_css_error env w _ hc
        rcases resolve_widget_error_kinds env w _ this with h2 | h2 <;> simp at h2
  · intro env cache w h
    unfold get_base_classes at h
    cases hl : alookup cache w with
    | some v => rw [hl] at h; cases h
    | none =>
      rw [hl] at h
      cases hc : compute_base_classes env w with
      | ok v => rw [hc] at h; cases h
      | error e =>
        rw [hc] at h
        injection h with h'
        subst h'
        have := compute_base_classes_error env w _ hc
        rcases resolve_widget_error_kinds env w _ this with h2 | h2 <;> simp at h2
  · intro env cache w h1 h2
    simp only [get_default_css, h1, compute_default_css, resolve_widget, h2]
  · intro env cache w h1 h2
    simp only [get_base_classes, h1, compute_base_classes, resolve_widget, h2]

/-- Witness for the amended C6 at a concrete unregistered identifier. -/
theorem unregistered_lookup_behaviour_witness :
    get_default_css emptyEnv [] "NotAWidget" ≠ .error .unknownWidget ∧
    get_base_classes emptyEnv [] "NotAWidget" ≠ .error .unknownWidget ∧
    get_default_css emptyEnv [] "NotAWidget" = .error .moduleNotFound ∧
    get_base_classes emptyEnv [] "NotAWidget" = .error .moduleNotFound :=
  ⟨unregistered_lookup_behaviour.1 emptyEnv [] "NotAWidget",
   unregistered_lookup_behaviour.2.1 emptyEnv [] "NotAWidget",
   unregistered_lookup_behaviour.2.2.1 emptyEnv [] "NotAWidget" (by decide) rfl,
   unregistered_lookup_behaviour.2.2.2 emptyEnv [] "NotAWidget" (by decide) rfl⟩

/-! Cache coherence: the module-level caches only ever hold the values the
uncached computations produce, so cached and fresh results agree. -/

theorem basesCoherent_nil (env : Env) : basesCoherent env [] := by
  intro w l h
  simp [alookup] at h

theorem cssCoherent_nil (env : Env) : cssCoherent env [] := by
  intro w v h
  simp [alookup] at h

theorem bool_or_false {a b : Bool} (h : (a || b) = false) : a = false ∧ b = false := by
  cases a <;> cases b <;> simp_all

theorem bool_or_true {a b : Bool} (h : (a || b) = true) : a = true ∨ b = true := by
  cases a <;> cases b <;> simp_all

theorem get_base_classes_sound (env : Env) (cache : BasesCache) (w : String)
    (l : List String) (cache' : BasesCache) (hcoh : basesCoherent env cache)
    (h : get_base_classes env cache w = .ok (l, cache')) :
    compute_base_classes env w = .ok l ∧ basesCoherent env cache' := by
  unfold get_base_classes at h
  cases hl : alookup cache w with
  | some l0 =>
    rw [hl] at h
    injection h with h'
    injection h' with h1 h2
    exact ⟨h1 ▸ hcoh w l0 hl, h2 ▸ hcoh⟩
  | none =>
    rw [hl] at h
    cases hc : compute_base_classes env w with
    | error e => rw [hc] at h; cases h
    | ok l0 =>
      rw [hc] at h
      injection h with h'
      injection h' with h1 h2
      refine ⟨?_, ?_⟩
      · rw [h1]
      rw [← h2]
      intro w' l' hw'
      by_cases hww : w = w'
      · subst hww
        simp [alookup] at hw'
        exact hw' ▸ hc
      · have : alookup cache w' = some l' := by
          simpa [alookup, hww] using hw'
        exact hcoh w' l' this

theorem get_default_css_sound (env : Env) (cache : CssCache) (w : String)
    (v : String) (cache' : CssCache) (hcoh : cssCoherent env cache)
    (h : get_default_css env cache w = .ok (v, cache')) :
    compute_default_css env w = .ok v ∧ cssCoherent env cache' := by
  unfold get_default_css at h
  cases hl : alookup cache w with
  | some v0 =>
    rw [hl] at h
    injection h with h'
    injection h' with h1 h2
    exact ⟨h1 ▸ hcoh w v0 hl, h2 ▸ hcoh⟩
  | none =>
    rw [hl] at h
    cases hc : compute_default_css env w with
    | error e => rw [hc] at h; cases h
    | ok v0 =>
      rw [hc] at h
      injection h with h'
      injection h' with h1 h2
      refine ⟨?_, ?_⟩
      · rw [h1]
      rw [← h2]
      intro w' v' hw'
      by_cases hww : w = w'
      · subst hww
        simp [alookup] at hw'
        exact hw' ▸ hc
      · have : alookup cache w' = some v' := by
          simpa [alookup, hww] using hw'
        exact hcoh w' v' this

theorem runBasesCalls_coherent (env : Env) (ws : List String) :
    ∀ cache : BasesCache, basesCoherent env cache →
      basesCoherent env (runBasesCalls env cache ws) := by
  induction ws with
  | nil => intro cache h; exact h
  | cons w rest ih =>
    intro cache h
    unfold runBasesCalls
    cases hg : get_base_classes env cache w with
    | error e => exact ih cache h
    | ok p =>
      obtain ⟨l, cache'⟩ := p
      exact ih cache' (get_base_classes_sound env cache w l cache' h hg).2

/-! C7: idempotence of the chain lookup. -/

/-- C7: get_base_classes is idempotent: in any interleaving of lookups starting
from the empty module-level cache, two calls for the same identifier that both
succeed return identical ordered chains. -/
theorem get_base_classes_idempotent (env : Env) (ws1 ws2 : List String) (w : String)
    (l1 l2 : List String) (c1 c2 : BasesCache)
    (h1 : get_base_classes env (runBasesCalls env [] ws1) w = .ok (l1, c1))
    (h2 : get_base_classes env (runBasesCalls env [] ws2) w = .ok (l2, c2)) :
    l1 = l2 := by
  have k1 := (get_base_classes_sound env _ w l1 c1
    (runBasesCalls_coherent env ws1 [] (basesCoherent_nil env)) h1).1
  have k2 := (get_base_classes_sound env _ w l2 c2
    (runBasesCalls_coherent env ws2 [] (basesCoherent_nil env)) h2).1
  rw [k1] at k2
  exact Except.ok.inj k2

/-- Witness for C7: a first call and a call after an interleaved lookup for
another widget return the same chain for Button. -/
theorem get_base_classes_idempotent_witness :
    (["DOMNode", "Widget", "Button"] : List String) = ["DOMNode", "Widget", "Button"] :=
  get_base_classes_idempotent demoEnv [] ["Tree"] "Button"
    ["DOMNode", "Widget", "Button"] ["DOMNode", "Widget", "Button"]
    [("Button", ["DOMNode", "Widget", "Button"])]
    [("Button", ["DOMNode", "Widget", "Button"]), ("Tree", ["DOMNode", "Widget", "Tree"])]
    (by decide) (by decide)

/-! Structure of the hierarchy walk. -/

theorem getBasesLoop_ne_nil (c : PyClass) : getBasesLoop c ≠ [] := by
  cases c with
  | mk n bs css => simp [getBasesLoop]

theorem getBasesLoop_head (c : PyClass) : (getBasesLoop c).head? = some c.name := by
  cases c with
  | mk n bs css => simp [getBasesLoop]

theorem getBasesStep_eq_nil (bs : List PyClass) (h : issubAnyBase bs DOMNode = false) :
    getBasesStep bs = [] := by
  induction bs with
  | nil => rfl
  | cons b rest ih =>
    rw [issubAnyBase] at h
    obtain ⟨h1, h2⟩ := bool_or_false h
    rw [getBasesStep, if_neg (by simp [h1])]
    exact ih h2

theorem getBasesStep_ne_nil (bs : List PyClass) (h : issubAnyBase bs DOMNode = true) :
    getBasesStep bs ≠ [] := by
  induction bs with
  | nil => simp [issubAnyBase] at h
  | cons b rest ih =>
    rw [issubAnyBase] at h
    cases hb : issub b DOMNode with
    | true =>
      rw [getBasesStep, if_pos (by simp [hb])]
      exact getBasesLoop_ne_nil b
    | false =>
      rw [getBasesStep, if_neg (by simp [hb])]
      rcases bool_or_true h with h' | h'
      · rw [hb] at h'; cases h'
      · exact ih h'

theorem pyClassBeq_DOMNode_name (c : PyClass) (h : pyClassBeq c DOMNode = true) :
    c.name = "DOMNode" := by
  cases c with
  | mk n bs css =>
    unfold DOMNode at h
    rw [pyClassBeq] at h
    simp only [Bool.and_eq_true, beq_iff_eq] at h
    simpa [PyClass.name] using h.1.1

theorem getLast?_cons_of_ne {α : Type} (a : α) (t : List α) (h : t ≠ []) :
    (a :: t).getLast? = t.getLast? := by
  cases t with
  | nil => cases h rfl
  | cons b t' => simp [List.getLast?_cons_cons]

mutual

theorem getBasesLoop_getLast : ∀ c : PyClass, issub c DOMNode = true →
    (getBasesLoop c).getLast? = some "DOMNode"
  | .mk n bs css, h => by
    cases hs : issubAnyBase bs DOMNode with
    | true =>
      have hstep := getBasesStep_getLast bs hs
      have hne : getBasesStep bs ≠ [] := getBasesStep_ne_nil bs hs
      rw [getBasesLoop, getLast?_cons_of_ne _ _ hne]
      exact hstep
    | false =>
      have hbeq : pyClassBeq (.mk n bs css) DOMNode = true := by
        rw [issub] at h
        rcases bool_or_true h with h' | h'
        · exact h'
        · rw [hs] at h'; cases h'
      rw [getBasesLoop, getBasesStep_eq_nil bs hs]
      have := pyClassBeq_DOMNode_name (.mk n bs css) hbeq
      simp only [PyClass.name] at this
      simp [PyClass.name, this]

theorem getBasesStep_getLast : ∀ bs : List PyClass, issubAnyBase bs DOMNode = true →
    (getBasesStep bs).getLast? = some "DOMNode"
  | b :: rest, h => by
    cases hb : issub b DOMNode with
    | true =>
      rw [getBasesStep, if_pos (by simp [hb])]
      exact getBasesLoop_getLast b hb
    | false =>
      rw [getBasesStep, if_neg (by simp [hb])]
      have hrest : issubAnyBase rest DOMNode = true := by
        rw [issubAnyBase] at h
        rcases bool_or_true h with h' | h'
        · rw [hb] at h'; cases h'
        · exact h'
      exact getBasesStep_getLast rest hrest

end

/-! C1: endpoints and order of the chain. -/

/-- C1 counterexample: for Button (a Widget, which is a DOMNode, as in the
toolkit) the chain is DOMNode, Widget, Button: it contains the universal root
DOMNode as its first element and the selected widget itself as its last, so it
is not the chain from the most general ancestor below the root down to the
immediate superclass that the claim describes (which would be just Widget). -/
theorem base_classes_endpoints_counterexample :
    get_base_classes demoEnv [] "Button" =
      .ok (["DOMNode", "Widget", "Button"], [("Button", ["DOMNode", "Widget", "Button"])]) ∧
    "DOMNode" ∈ ["DOMNode", "Widget", "Button"] ∧
    "Button" ∈ ["DOMNode", "Widget", "Button"] ∧
    (["DOMNode", "Widget", "Button"] : List String) ≠ ["Widget"] := by
  decide

/-- C1 amended: for a widget whose class resolves and lies in the DOMNode
family, get_base_classes returns the walk reversed into root-first order: its
first element is the root DOMNode itself (included, not excluded) and its last
element is the selected widget itself (included, not its immediate superclass);
only bases in the node-capability family are followed. -/
theorem base_classes_root_first (env : Env) (cache : BasesCache) (w : String)
    (cls : PyClass) (l : List String) (cache' : BasesCache)
    (hmiss : alookup cache w = none) (hres : resolve_widget env w = .ok cls)
    (hsub : issub cls DOMNode = true)
    (hok : get_base_classes env cache w = .ok (l, cache')) :
    l = (getBasesLoop cls).reverse ∧ l.head? = some "DOMNode" ∧
    l.getLast? = some cls.name ∧ l ≠ [] := by
  have hcomp : compute_base_classes env w = .ok (getBasesLoop cls).reverse := by
    simp only [compute_base_classes, hres]
  have hget : get_base_classes env cache w =
      .ok ((getBasesLoop cls).reverse, (w, (getBasesLoop cls).reverse) :: cache) := by
    simp only [get_base_classes, hmiss, hcomp]
  rw [hget] at hok
  injection hok with h'
  injection h' with h1 h2
  subst h1
  refine ⟨rfl, ?_, ?_, ?_⟩
  · rw [List.head?_reverse]
    exact getBasesLoop_getLast cls hsub
  · rw [List.getLast?_reverse]
    exact getBasesLoop_head cls
  · simp [getBasesLoop_ne_nil cls]

/-! Stripping leaves no whitespace at the ends. -/

theorem head_dropWhile_false {α : Type} (p : α → Bool) :
    ∀ (l : List α) (c : α), (l.dropWhile p).head? = some c → p c = false := by
  intro l
  induction l with
  | nil => intro c h; simp [List.dropWhile] at h
  | cons a as ih =>
    intro c h
    rw [List.dropWhile_cons] at h
    by_cases hp : p a = true
    · rw [if_pos hp] at h
      exact ih c h
    · rw [if_neg hp] at h
      simp only [List.head?_cons, Option.some.injEq] at h
      rw [← h]
      simpa using hp

theorem getLast_dropWhile {α : Type} (p : α → Bool) :
    ∀ l : List α, l.dropWhile p ≠ [] → (l.dropWhile p).getLast? = l.getLast? := by
  intro l
  induction l with
  | nil => intro h; simp [List.dropWhile] at h
  | cons a as ih =>
    intro h
    rw [List.dropWhile_cons] at h ⊢
    by_cases hp : p a = true
    · rw [if_pos hp] at h ⊢
      have has : as ≠ [] := by
        intro he
        rw [he] at h
        simp [List.dropWhile] at h
      rw [ih h, getLast?_cons_of_ne a as has]
    · rw [if_neg hp]

theorem noEdgeWs_pyStripL (l : List Char) : noEdgeWs (pyStripL l) = true := by
  unfold noEdgeWs pyStripL
  cases hy : (l.dropWhile pyIsSpace).reverse.dropWhile pyIsSpace with
  | nil => simp
  | cons c cs =>
    rw [← hy]
    have hyne : (l.dropWhile pyIsSpace).reverse.dropWhile pyIsSpace ≠ [] := by
      rw [hy]; exact List.cons_ne_nil c cs
    have hhead : ((l.dropWhile pyIsSpace).reverse.dropWhile pyIsSpace).reverse.head? =
        ((l.dropWhile pyIsSpace).reverse.dropWhile pyIsSpace).getLast? :=
      List.head?_reverse _
    have hlast : ((l.dropWhile pyIsSpace).reverse.dropWhile pyIsSpace).reverse.getLast? =
        ((l.dropWhile pyIsSpace).reverse.dropWhile pyIsSpace).head? :=
      List.getLast?_reverse _
    rw [hhead, hlast]
    have hgl : ((l.dropWhile pyIsSpace).reverse.dropWhile pyIsSpace).getLast? =
        (l.dropWhile pyIsSpace).reverse.getLast? := getLast_dropWhile pyIsSpace _ hyne
    rw [hgl, List.getLast?_reverse]
    -- first conjunct: getLast? side is the head of the first dropWhile
    cases hx : (l.dropWhile pyIsSpace).head? with
    | none =>
      -- then the first dropWhile is empty, contradicting hyne
      exfalso
      apply hyne
      have : l.dropWhile pyIsSpace = [] := by
        cases hxx : l.dropWhile pyIsSpace with
        | nil => rfl
        | cons d ds => rw [hxx] at hx; cases hx
      rw [this]
      rfl
    | some d =>
      have hd : pyIsSpace d = false := head_dropWhile_false pyIsSpace l d hx
      cases hy2 : ((l.dropWhile pyIsSpace).reverse.dropWhile pyIsSpace).head? with
      | none =>
        rw [hy] at hy2
        cases hy2
      | some d2 =>
        have hd2 : pyIsSpace d2 = false :=
          head_dropWhile_false pyIsSpace (l.dropWhile pyIsSpace).reverse d2 hy2
        simp [hd, hd2]

/-! C3: normalisation and caching of get_default_css. -/

/-- C3: for a widget whose class resolves, get_default_css returns the raw
DEFAULT_CSS dedented and stripped (hence with no leading or trailing
whitespace), stores that value in the cache, and afterwards returns the cached
value unchanged with the cache untouched. -/
theorem default_css_normalized_and_cached (env : Env) (cache : CssCache) (w : String)
    (cls : PyClass) (hmiss : alookup cache w = none) (hres : resolve_widget env w = .ok cls) :
    get_default_css env cache w =
      .ok (pyStrip (dedent cls.DEFAULT_CSS), (w, pyStrip (dedent cls.DEFAULT_CSS)) :: cache) ∧
    noEdgeWs (pyStrip (dedent cls.DEFAULT_CSS)).data = true ∧
    get_default_css env ((w, pyStrip (dedent cls.DEFAULT_CSS)) :: cache) w =
      .ok (pyStrip (dedent cls.DEFAULT_CSS), (w, pyStrip (dedent cls.DEFAULT_CSS)) :: cache) := by
  refine ⟨?_, ?_, ?_⟩
  · simp only [get_default_css, hmiss, compute_default_css, hres]
  · exact noEdgeWs_pyStripL (dedent cls.DEFAULT_CSS).data
  · simp [get_default_css, alookup]

/-- Witness for C3 at the concrete Button class of the demonstration
environment. -/
theorem default_css_normalized_and_cached_witness :
    get_default_css demoEnv [] "Button" =
      .ok (pyStrip (dedent (demoClass "Button").DEFAULT_CSS),
           [("Button", pyStrip (dedent (demoClass "Button").DEFAULT_CSS))]) ∧
    noEdgeWs (pyStrip (dedent (demoClass "Button").DEFAULT_CSS)).data = true ∧
    get_default_css demoEnv [("Button", pyStrip (dedent (demoClass "Button").DEFAULT_CSS))]
        "Button" =
      .ok (pyStrip (dedent (demoClass "Button").DEFAULT_CSS),
           [("Button", pyStrip (dedent (demoClass "Button").DEFAULT_CSS))]) :=
  default_css_normalized_and_cached demoEnv [] "Button" (demoClass "Button") rfl rfl

/-! Dedenting and stripping preserve at least one non-whitespace character, so
the normalised CSS of a class with real style text is nonempty. -/

theorem bool_and_true {a b : Bool} (h : (a && b) = true) : a = true ∧ b = true := by
  cases a <;> cases b <;> simp_all

theorem splitNl_ne_nil : ∀ l : List Char, splitNl l ≠ [] := by
  intro l
  cases l with
  | nil => simp [splitNl]
  | cons c cs =>
    rw [splitNl]
    by_cases h : c = '\n'
    · rw [if_pos h]; exact List.cons_ne_nil _ _
    · rw [if_neg h]
      cases hs : splitNl cs with
      | nil => exact List.cons_ne_nil _ _
      | cons a as => exact List.cons_ne_nil _ _

theorem mem_splitNl : ∀ (l : List Char) (c : Char), c ∈ l → c ≠ '\n' →
    ∃ ln, ln ∈ splitNl l ∧ c ∈ ln := by
  intro l
  induction l with
  | nil => intro c h _; cases h
  | cons a as ih =>
    intro c hc hne
    rw [splitNl]
    by_cases ha : a = '\n'
    · rw [if_pos ha]
      have hcs : c ∈ as := by
        rcases List.mem_cons.mp hc with h | h
        · exact absurd (h.trans ha) hne
        · exact h
      obtain ⟨ln, hl1, hl2⟩ := ih c hcs hne
      exact ⟨ln, List.mem_cons_of_mem _ hl1, hl2⟩
    · rw [if_neg ha]
      cases hs : splitNl as with
      | nil => exact absurd hs (splitNl_ne_nil as)
      | cons l0 ls =>
        rcases List.mem_cons.mp hc with h | h
        · exact ⟨a :: l0, List.mem_cons_self _ _, by rw [h]; exact List.mem_cons_self _ _⟩
        · obtain ⟨ln, hl1, hl2⟩ := ih c h hne
          rw [hs] at hl1
          rcases List.mem_cons.mp hl1 with h2 | h2
          · refine ⟨a :: l0, List.mem_cons_self _ _, ?_⟩
            rw [h2] at hl2
            exact List.mem_cons_of_mem a hl2
          · exact ⟨ln, List.mem_cons_of_mem _ h2, hl2⟩

theorem mem_joinNl : ∀ (ls : List (List Char)) (ln : List Char) (c : Char),
    ln ∈ ls → c ∈ ln → c ∈ joinNl ls := by
  intro ls
  induction ls with
  | nil => intro ln c h _; cases h
  | cons l0 rest ih =>
    intro ln c hln hc
    cases rest with
    | nil =>
      rcases List.mem_cons.mp hln with h | h
      · show c ∈ l0
        rw [← h]
        exact hc
      · cases h
    | cons l1 rest' =>
      show c ∈ l0 ++ '\n' :: joinNl (l1 :: rest')
      rcases List.mem_cons.mp hln with h | h
      · exact List.mem_append.mpr (Or.inl (h ▸ hc))
      · exact List.mem_append.mpr (Or.inr (List.mem_cons_of_mem _ (ih ln c h hc)))

theorem mem_commonPrefix_left : ∀ (a b : List Char) (c : Char), c ∈ commonPrefix a b → c ∈ a := by
  intro a
  induction a with
  | nil => intro b c h; simp [commonPrefix] at h
  | cons x xs ih =>
    intro b c h
    cases b with
    | nil => simp [commonPrefix] at h
    | cons y ys =>
      rw [commonPrefix] at h
      by_cases hxy : x = y
      · rw [if_pos hxy] at h
        rcases List.mem_cons.mp h with h' | h'
        · rw [h']; exact List.mem_cons_self _ _
        · exact List.mem_cons_of_mem _ (ih ys c h')
      · rw [if_neg hxy] at h; cases h

theorem mem_foldl_commonPrefix : ∀ (is : List (List Char)) (m : List Char) (c : Char),
    c ∈ is.foldl commonPrefix m → c ∈ m := by
  intro is
  induction is with
  | nil => intro m c h; exact h
  | cons i rest ih =>
    intro m c h
    rw [List.foldl_cons] at h
    exact mem_commonPrefix_left m i c (ih (commonPrefix m i) c h)

theorem dedentMargin_chars (lines : List (List Char)) (c : Char)
    (h : c ∈ dedentMargin lines) : isMarginChar c = true := by
  unfold dedentMargin at h
  cases hm : (lines.filter fun ln => !ln.isEmpty).map (fun ln => ln.takeWhile isMarginChar) with
  | nil => rw [hm] at h; cases h
  | cons i is =>
    rw [hm] at h
    have hci : c ∈ i := mem_foldl_commonPrefix is i c h
    have hii : i ∈ (lines.filter fun ln => !ln.isEmpty).map
        (fun ln => ln.takeWhile isMarginChar) := by
      rw [hm]; exact List.mem_cons_self i is
    obtain ⟨ln, _, hln⟩ := List.mem_map.mp hii
    rw [← hln] at hci
    exact List.mem_takeWhile_imp hci

theorem mem_dropWhile_of_not {α : Type} (p : α → Bool) (c : α) (hc : p c = false) :
    ∀ l : List α, c ∈ l → c ∈ l.dropWhile p := by
  intro l
  induction l with
  | nil => intro h; cases h
  | cons a as ih =>
    intro h
    rw [List.dropWhile_cons]
    by_cases hp : p a = true
    · rw [if_pos hp]
      rcases List.mem_cons.mp h with h' | h'
      · rw [h'] at hc; rw [hc] at hp; exact Bool.noConfusion hp
      · exact ih h'
    · rw [if_neg hp]; exact h

theorem isMarginChar_pyIsSpace (c : Char) (h : isMarginChar c = true) : pyIsSpace c = true := by
  rw [isMarginChar] at h
  rcases bool_or_true h with h' | h'
  · rw [eq_of_beq h']; rfl
  · rw [eq_of_beq h']; rfl

theorem mem_dedentL (c : Char) (hc : pyIsSpace c = false) (l : List Char) (hl : c ∈ l) :
    c ∈ dedentL l := by
  have hcn : c ≠ '\n' := by
    intro he
    rw [he] at hc
    simp [pyIsSpace] at hc
  have hcm : isMarginChar c = false := by
    cases hm : isMarginChar c
    · rfl
    · rw [isMarginChar_pyIsSpace c hm] at hc
      exact Bool.noConfusion hc
  unfold dedentL
  obtain ⟨ln, hln, hcl⟩ := mem_splitNl l c hl hcn
  have hall : ln.all isMarginChar = false := by
    cases ha : ln.all isMarginChar
    · rfl
    · have := List.all_eq_true.mp ha c hcl
      rw [hcm] at this
      exact Bool.noConfusion this
  have hmap1 : (if ln.all isMarginChar && !ln.isEmpty then [] else ln) = ln := by
    rw [hall]
    simp
  have hln1 : ln ∈ (splitNl l).map
      fun ln => if ln.all isMarginChar && !ln.isEmpty then [] else ln := by
    rw [← hmap1]
    exact List.mem_map_of_mem _ hln
  have hc2 : c ∈ (if (dedentMargin ((splitNl l).map
        fun ln => if ln.all isMarginChar && !ln.isEmpty then [] else ln)).isPrefixOf ln then
      ln.drop (dedentMargin ((splitNl l).map
        fun ln => if ln.all isMarginChar && !ln.isEmpty then [] else ln)).length else ln) := by
    set margin := dedentMargin ((splitNl l).map
      fun ln => if ln.all isMarginChar && !ln.isEmpty then [] else ln) with hmar
    by_cases hpre : margin.isPrefixOf ln = true
    · rw [if_pos hpre]
      obtain ⟨t, ht⟩ := List.isPrefixOf_iff_prefix.mp hpre
      rw [← ht, List.drop_left]
      rcases List.mem_append.mp (by rw [ht]; exact hcl) with hm | hm
      · exfalso
        have := dedentMargin_chars _ c (hmar ▸ hm)
        rw [hcm] at this
        exact Bool.noConfusion this
      · exact hm
    · rw [if_neg hpre]; exact hcl
  exact mem_joinNl _ _ c (List.mem_map_of_mem _ hln1) hc2

theorem pyStripL_ne_nil (c : Char) (hc : pyIsSpace c = false) (l : List Char) (h : c ∈ l) :
    pyStripL l ≠ [] := by
  unfold pyStripL
  have h1 := mem_dropWhile_of_not pyIsSpace c hc l h
  have h2 := List.mem_reverse.mpr h1
  have h3 := mem_dropWhile_of_not pyIsSpace c hc _ h2
  have h4 := List.mem_reverse.mpr h3
  exact List.ne_nil_of_mem h4

/-! C8: the lookups succeed with nonempty results on the whole registry. -/

/-- C8: when the collaborator's data is complete for every registered identifier
(the class resolves, descends properly from DOMNode, and its DEFAULT_CSS holds
a non-whitespace character), both get_default_css and get_base_classes succeed
on every registry entry and return nonempty results. -/
theorem registry_lookups_succeed (env : Env) (henv : envComplete env = true)
    (w : String) (hw : w ∈ WIDGET_CLASSES) :
    ∃ v ccache l bcache,
      get_default_css env [] w = .ok (v, ccache) ∧ v ≠ "" ∧
      get_base_classes env [] w = .ok (l, bcache) ∧ l ≠ [] := by
  have hall := List.all_eq_true.mp henv w hw
  cases hres : resolve_widget env w with
  | error e => rw [hres] at hall; exact Bool.noConfusion hall
  | ok cls =>
    rw [hres] at hall
    have hall' : (issubAnyBase cls.bases DOMNode &&
        cls.DEFAULT_CSS.data.any fun c => !pyIsSpace c) = true := hall
    have hcss := (bool_and_true hall').2
    obtain ⟨ch, hch, hchs⟩ := List.any_eq_true.mp hcss
    have hchf : pyIsSpace ch = false := by
      cases hx : pyIsSpace ch
      · rfl
      · rw [hx] at hchs; exact Bool.noConfusion hchs
    refine ⟨pyStrip (dedent cls.DEFAULT_CSS), [(w, pyStrip (dedent cls.DEFAULT_CSS))],
           (getBasesLoop cls).reverse, [(w, (getBasesLoop cls).reverse)], ?_, ?_, ?_, ?_⟩
    · simp only [get_default_css, alookup, compute_default_css, hres]
    · intro hv
      have hdata : pyStripL (dedentL cls.DEFAULT_CSS.data) = [] := congrArg String.data hv
      exact pyStripL_ne_nil ch hchf (dedentL cls.DEFAULT_CSS.data)
        (mem_dedentL ch hchf cls.DEFAULT_CSS.data hch) hdata
    · simp only [get_base_classes, alookup, compute_base_classes, hres]
    · intro hl
      rw [List.reverse_eq_nil_iff] at hl
      exact getBasesLoop_ne_nil cls hl

/-- Witness for C8 at the demonstration environment and the Button entry. -/
theorem registry_lookups_succeed_witness :
    ∃ v ccache l bcache,
      get_default_css demoEnv [] "Button" = .ok (v, ccache) ∧ v ≠ "" ∧
      get_base_classes demoEnv [] "Button" = .ok (l, bcache) ∧ l ≠ [] :=
  registry_lookups_succeed demoEnv (by decide) "Button" (by decide)

/-! C10: the chain has at least two entries, so the tree rebuild is safe. -/

/-- C10: when the collaborator's data is complete, the chain returned for every
registered identifier has length at least two, so the inheritance panel's
access to base_classes[1] cannot raise IndexError, the rebuild succeeds, and at
least one node is inserted under the tree root. -/
theorem inheritance_tree_index_safe (env : Env) (henv : envComplete env = true)
    (w : String) (hw : w ∈ WIDGET_CLASSES) :
    ∃ l bcache, get_base_classes env [] w = .ok (l, bcache) ∧ 2 ≤ l.length ∧
      ∃ chain cursor, InheritanceTree.watch_widget_class env [] w =
        .ok ((chain, cursor), bcache) ∧ chain ≠ [] := by
  have hall := List.all_eq_true.mp henv w hw
  cases hres : resolve_widget env w with
  | error e => rw [hres] at hall; exact Bool.noConfusion hall
  | ok cls =>
    rw [hres] at hall
    have hall' : (issubAnyBase cls.bases DOMNode &&
        cls.DEFAULT_CSS.data.any fun c => !pyIsSpace c) = true := hall
    have hsub := (bool_and_true hall').1
    have hlen : 2 ≤ (getBasesLoop cls).reverse.length := by
      rw [List.length_reverse]
      cases cls with
      | mk n bs css =>
        rw [getBasesLoop]
        have hstep : getBasesStep bs ≠ [] :=
          getBasesStep_ne_nil bs (by simpa [PyClass.bases] using hsub)
        rw [List.length_cons]
        have hpos : 0 < (getBasesStep bs).length := List.length_pos.mpr hstep
        omega
    have hget : get_base_classes env [] w = .ok ((getBasesLoop cls).reverse,
        [(w, (getBasesLoop cls).reverse)]) := by
      simp only [get_base_classes, alookup, compute_base_classes, hres]
    have h1lt : 1 < (getBasesLoop cls).reverse.length := by omega
    have hidx : ((getBasesLoop cls).reverse)[1]? =
        some ((getBasesLoop cls).reverse.get ⟨1, h1lt⟩) := by
      rw [List.getElem?_eq_getElem h1lt]
      rfl
    refine ⟨(getBasesLoop cls).reverse, [(w, (getBasesLoop cls).reverse)], hget, hlen,
      (getBasesLoop cls).reverse.get ⟨1, h1lt⟩ :: (getBasesLoop cls).reverse.drop 2,
      ((getBasesLoop cls).reverse.get ⟨1, h1lt⟩ ::
        (getBasesLoop cls).reverse.drop 2).length - 1, ?_, ?_⟩
    · simp only [InheritanceTree.watch_widget_class, hget, hidx]
    · exact List.cons_ne_nil _ _

/-- Witness for C10 at the demonstration environment and the Button entry. -/
theorem inheritance_tree_index_safe_witness :
    ∃ l bcache, get_base_classes demoEnv [] "Button" = .ok (l, bcache) ∧ 2 ≤ l.length ∧
      ∃ chain cursor, InheritanceTree.watch_widget_class demoEnv [] "Button" =
        .ok ((chain, cursor), bcache) ∧ chain ≠ [] :=
  inheritance_tree_index_safe demoEnv (by decide) "Button" (by decide)

/-! C9: the rendered panels are a function of the selected identifier alone. -/

theorem inheritance_watch_sound (env : Env) (cache : BasesCache) (w : String)
    (tree : List String × Nat) (bcache : BasesCache) (hcoh : basesCoherent env cache)
    (h : InheritanceTree.watch_widget_class env cache w = .ok (tree, bcache)) :
    basesCoherent env bcache ∧
    ∃ l second, compute_base_classes env w = .ok l ∧ l[1]? = some second ∧
      tree = (second :: l.drop 2, (second :: l.drop 2).length - 1) := by
  unfold InheritanceTree.watch_widget_class at h
  cases hg : get_base_classes env cache w with
  | error e => rw [hg] at h; cases h
  | ok p =>
    obtain ⟨l, cache'⟩ := p
    simp only [hg] at h
    obtain ⟨hcomp, hcoh'⟩ := get_base_classes_sound env cache w l cache' hcoh hg
    cases h1 : l[1]? with
    | none =>
      simp only [h1] at h
      cases h
    | some second =>
      simp only [h1] at h
      injection h with h'
      injection h' with ht hb2
      exact ⟨hb2 ▸ hcoh', l, second, hcomp, h1, ht.symm⟩

theorem css_watch_sound (env : Env) (cache : CssCache) (w : String)
    (v : String) (ccache : CssCache) (hcoh : cssCoherent env cache)
    (h : DefaultCSSView.watch_widget_class env cache w = .ok (v, ccache)) :
    cssCoherent env ccache ∧ compute_default_css env w = .ok v := by
  unfold DefaultCSSView.watch_widget_class at h
  obtain ⟨hc, hcoh'⟩ := get_default_css_sound env cache w v ccache hcoh h
  exact ⟨hcoh', hc⟩

theorem updateAll_sound (env : Env) (version : String) (s : AppState) (w : String)
    (s' : AppState) (hb : basesCoherent env s.bases_cache) (hc : cssCoherent env s.css_cache)
    (h : updateAll env version s w = .ok s') :
    basesCoherent env s'.bases_cache ∧ cssCoherent env s'.css_cache ∧
    ∃ l second v, compute_base_classes env w = .ok l ∧ l[1]? = some second ∧
      compute_default_css env w = .ok v ∧
      s'.panels = ⟨DocumentationLink.watch_widget_class ⟨"", ""⟩ w,
                   SourceCodeLink.watch_widget_class version ⟨"", ""⟩ w,
                   (second :: l.drop 2, (second :: l.drop 2).length - 1), v⟩ := by
  unfold updateAll at h
  cases ht : InheritanceTree.watch_widget_class env s.bases_cache w with
  | error e => rw [ht] at h; cases h
  | ok p =>
    obtain ⟨tree, bcache⟩ := p
    simp only [ht] at h
    cases hcs : DefaultCSSView.watch_widget_class env s.css_cache w with
    | error e =>
      simp only [hcs] at h
      cases h
    | ok q =>
      obtain ⟨v, ccache⟩ := q
      simp only [hcs] at h
      obtain ⟨hbc, l, second, hcompl, hidx, htree⟩ :=
        inheritance_watch_sound env s.bases_cache w tree bcache hb ht
      obtain ⟨hcc, hcompv⟩ := css_watch_sound env s.css_cache w v ccache hc hcs
      injection h with h'
      rw [← h']
      refine ⟨hbc, hcc, l, second, v, hcompl, hidx, hcompv, ?_⟩
      show PanelsState.mk
          (DocumentationLink.watch_widget_class s.panels.documentation_link w)
          (SourceCodeLink.watch_widget_class version s.panels.source_code_link w)
          tree v = _
      rw [htree]
      rfl

/-- C9: starting from coherent caches, applying the selection updates A, B, A
leaves every panel with exactly the content produced by applying A once: the
rendered panels are a function of the selected identifier, with no hidden state
drift across selections. -/
theorem panels_no_state_drift (env : Env) (version : String) (s : AppState)
    (A B : String) (hb : basesCoherent env s.bases_cache) (hc : cssCoherent env s.css_cache)
    (hok : isOkB (updateSeq env version s [A, B, A]) = true) :
    Except.map AppState.panels (updateSeq env version s [A, B, A]) =
      Except.map AppState.panels (updateSeq env version s [A]) := by
  cases h1 : updateAll env version s A with
  | error e =>
    exfalso
    have hx : updateSeq env version s [A, B, A] = .error e := by
      simp only [updateSeq, h1]
    rw [hx] at hok
    exact Bool.noConfusion hok
  | ok s1 =>
    have hA : updateSeq env version s [A] = .ok s1 := by
      simp only [updateSeq, h1]
    cases h2 : updateAll env version s1 B with
    | error e =>
      exfalso
      have hx : updateSeq env version s [A, B, A] = .error e := by
        simp only [updateSeq, h1, h2]
      rw [hx] at hok
      exact Bool.noConfusion hok
    | ok s2 =>
      cases h3 : updateAll env version s2 A with
      | error e =>
        exfalso
        have hx : updateSeq env version s [A, B, A] = .error e := by
          simp only [updateSeq, h1, h2, h3]
        rw [hx] at hok
        exact Bool.noConfusion hok
      | ok s3 =>
        have hfull : updateSeq env version s [A, B, A] = .ok s3 := by
          simp only [updateSeq, h1, h2, h3]
        rw [hfull, hA]
        obtain ⟨hb1, hc1, l1, sec1, v1, hl1, hs1, hv1, hp1⟩ :=
          updateAll_sound env version s A s1 hb hc h1
        obtain ⟨hb2, hc2, _⟩ := updateAll_sound env version s1 B s2 hb1 hc1 h2
        obtain ⟨hb3, hc3, l3, sec3, v3, hl3, hs3, hv3, hp3⟩ :=
          updateAll_sound env version s2 A s3 hb2 hc2 h3
        rw [hl1] at hl3
        cases Except.ok.inj hl3
        rw [hv1] at hv3
        cases Except.ok.inj hv3
        rw [hs1] at hs3
        cases Option.some.inj hs3
        simp only [Except.map]
        rw [hp1, hp3]

/-- Witness for C9: the concrete Button, Checkbox, Button sequence from the
startup state renders the same panels as selecting Button once. -/
theorem panels_no_state_drift_witness :
    Except.map AppState.panels
        (updateSeq demoEnv "3.7.1" demoAppState ["Button", "Checkbox", "Button"]) =
      Except.map AppState.panels (updateSeq demoEnv "3.7.1" demoAppState ["Button"]) :=
  panels_no_state_drift demoEnv "3.7.1" demoAppState "Button" "Checkbox"
    (basesCoherent_nil demoEnv) (cssCoherent_nil demoEnv) (by decide)

/-- Witness for the amended C1 at the concrete Button hierarchy. -/
theorem base_classes_root_first_witness :
    (["DOMNode", "Widget", "Button"] : List String) = (getBasesLoop (demoClass "Button")).reverse ∧
    (["DOMNode", "Widget", "Button"] : List String).head? = some "DOMNode" ∧
    (["DOMNode", "Widget", "Button"] : List String).getLast? = some (demoClass "Button").name ∧
    (["DOMNode", "Widget", "Button"] : List String) ≠ [] :=
  base_classes_root_first demoEnv [] "Button" (demoClass "Button")
    ["DOMNode", "Widget", "Button"] [("Button", ["DOMNode", "Widget", "Button"])]
    rfl rfl (by decide) (by decide)

end TextualDissect
